import Mathlib

/-!
Verification development for `mrpt/poses/CPointPDFParticles.h`
(class `CPointPDFParticles`): a particle ensemble over a 3D point with
log-weights, and its structured-schema codec (`serializeTo` /
`serializeFrom`), ensemble store (`setSize`, `size`), statistics
(`getMean`, `getCovarianceAndMean`) and sampler (`drawSingleSample`).

Shallow embedding conventions:
* the particle list `m_particles` is a Lean `List`;
* numeric payloads (`float x,y,z`, `double log_w`) are modelled as `ℚ`,
  an exact stand-in for "same numeric type" value transport;
* machine-integer conversions in the source are kept explicit:
  `uint8_t version = in.get("version",0)` is `emod 256`,
  `uint32_t N = in["N"]` and `(uint32_t)size()` are `% 2 ^ 32`;
* the local loop counter of `serializeFrom` is declared `int k;` in the
  source without an initializer, so the embedding takes the initial
  value `k0 : Int` as an explicit parameter (an indeterminate value);
  `serializeTo` initializes its counter to `0` and the embedding does too;
* a schema (`SCHEMA_CAPABLE`) is modelled as a record holding exactly the
  fields the code reads/writes: `datatype`, optional `version`, `N`, and a
  total map from integer indices to per-particle field groups (a total map
  because the code may index `in["particles"][k]` at any integer);
* a thrown `MRPT_THROW_UNKNOWN_SERIALIZATION_VERSION` is an explicit error
  value, and mutating members return the final ensemble state explicitly.
-/

namespace CPointPDFParticles

/-- `mrpt::math::TPoint3Df`: a single-precision 3D point, coordinates
modelled exactly as `ℚ`. -/
structure TPoint3Df where
  x : ℚ
  y : ℚ
  z : ℚ
deriving DecidableEq

/-- A `CProbabilityParticle<TPoint3Df>`: point data `d` plus `log_w`. -/
structure Particle where
  d : TPoint3Df
  log_w : ℚ
deriving DecidableEq

/-- The particle list `m_particles`. -/
abbrev Ensemble := List Particle

/-- `this->GetRuntimeClass()->className` for this class. -/
def className : String := "CPointPDFParticles"

/-- `size()`: `return m_particles.size();`. -/
def size (e : Ensemble) : Nat := e.length

/-- Modelled from the spec: the body of `setSize(numberParticles,
defaultValue)` is not part of the given sources (only its declaration is);
per the spec the ensemble becomes exactly `n` particles, each holding the
default value with uniform weight `log_weight == 0`, previous content
discarded. -/
def setSize (n : Nat) (v : TPoint3Df) : Ensemble :=
  match n with
  | 0 => []
  | Nat.succ m => { d := v, log_w := 0 } :: setSize m v

/-- The group of fields the codec stores under `particles[k]`. -/
structure PFields where
  log_w : ℚ
  x : ℚ
  y : ℚ
  z : ℚ
deriving DecidableEq

/-- The schema fields touched by `serializeTo` / `serializeFrom`.
`version` is `none` when the field is absent (then `in.get("version",0)`
yields the default `0`). `particles` is a total map over integer indices. -/
structure Schema where
  datatype : String
  version : Option Int
  N : Int
  particles : Int → PFields

/-- Field group written for one particle:
`{log_w := it->log_w, x := it->d->x, y := it->d->y, z := it->d->z}`. -/
def pfOfParticle (p : Particle) : PFields :=
  { log_w := p.log_w, x := p.d.x, y := p.d.y, z := p.d.z }

/-- The all-zero field group (default for indices never written). -/
def pf0 : PFields := { log_w := 0, x := 0, y := 0, z := 0 }

/-- The encoding loop of `serializeTo`: iterate over the particle list with
counter `k`, setting `out["particles"][k]` to the current particle's
fields. -/
def writeParticles : Ensemble → Int → (Int → PFields) → (Int → PFields)
  | [], _, acc => acc
  | p :: rest, k, acc =>
      writeParticles rest (k + 1) (fun j => if j = k then pfOfParticle p else acc j)

/-- `serializeTo`: writes `datatype`, `version = 1`, `N = (uint32_t)size()`
and the particle loop starting at `k = 0`. -/
def serializeTo (e : Ensemble) : Schema :=
  { datatype := className
    version := some 1
    N := Int.ofNat (size e % 2 ^ 32)
    particles := writeParticles e 0 (fun _ => pf0) }

/-- Errors `serializeFrom` can raise:
`MRPT_THROW_UNKNOWN_SERIALIZATION_VERSION(version)` carries the `uint8_t`
version value. -/
inductive SerError where
  | unknownVersion (v : Nat)
deriving DecidableEq

/-- The decoding loop of `serializeFrom`: after `setSize(N)` the code walks
`m_particles`, overwriting each particle's `log_w, x, y, z` from
`in["particles"][k]`, incrementing `k`. Every field of every walked
particle is overwritten, so the walk rebuilds the list from the schema map
starting at index `k`. -/
def readParticles (f : Int → PFields) : Ensemble → Int → Ensemble
  | [], _ => []
  | _ :: rest, k =>
      { d := { x := (f k).x, y := (f k).y, z := (f k).z }, log_w := (f k).log_w }
        :: readParticles f rest (k + 1)

/-- `serializeFrom`: reads `uint8_t version = in.get("version",0)`; if
`in["datatype"]` matches the class name, dispatches on the version
(`case 1`: `uint32_t N = in["N"]; setSize(N);` then the decoding loop with
the uninitialized counter `k`, here the explicit `k0`; `default`: throw
unknown-version). On a datatype mismatch nothing happens. Returns the
final ensemble state together with the error raised, if any. -/
def serializeFrom (e : Ensemble) (sch : Schema) (k0 : Int) :
    Ensemble × Option SerError :=
  let version : Nat := ((sch.version.getD 0) % 256).toNat
  if sch.datatype = className then
    if version = 1 then
      let N : Nat := (sch.N % (2 ^ 32)).toNat
      let e1 := setSize N { x := 0, y := 0, z := 0 }
      (readParticles sch.particles e1 k0, none)
    else
      (e, some (SerError.unknownVersion version))
  else
    (e, none)

/-- The encoding loop of `serializeTo` with the ensemble state threaded
through explicitly: each iteration reads the current particle (through a
`const_iterator`, never writing it) and emits it back unchanged, together
with the schema map built so far. Used to state that encoding is
read-only. -/
def serializeToLoop : Ensemble → Int → (Int → PFields) → Ensemble × (Int → PFields)
  | [], _, acc => ([], acc)
  | p :: rest, k, acc =>
      let r := serializeToLoop rest (k + 1) (fun j => if j = k then pfOfParticle p else acc j)
      (p :: r.1, r.2)

/-- `serializeTo` in state-passing form: the produced schema together with
the ensemble state after the call. -/
def serializeToSt (e : Ensemble) : Schema × Ensemble :=
  let r := serializeToLoop e 0 (fun _ => pf0)
  ({ datatype := className
     version := some 1
     N := Int.ofNat (size e % 2 ^ 32)
     particles := r.2 }, r.1)

/-- Precondition failures (MRPT `ASSERT_`-style). -/
inductive PreError where
  | emptyEnsemble
deriving DecidableEq

/-- Modelled from the spec: the body of `drawSingleSample(outSample)` is
not part of the given sources (only its declaration is). Per the spec it
selects one particle's point at random with probability proportional to
its normalized weight, returning the coordinates verbatim, and an empty
ensemble is an explicit precondition failure, not silent garbage. The
random source is external; it is modelled as an abstract draw `r`
selecting a particle index. The method is `const`; the ensemble state
after the call is returned explicitly. -/
def drawSingleSample (e : Ensemble) (r : Nat) : Except PreError TPoint3Df × Ensemble :=
  match e with
  | [] => (Except.error PreError.emptyEnsemble, e)
  | p :: rest => (Except.ok ((p :: rest).get ⟨r % (p :: rest).length, Nat.mod_lt _ (Nat.succ_pos _)⟩).d, e)

/-- Adding a constant `c` to one particle's `log_w`. -/
def shiftP (c : ℚ) (p : Particle) : Particle :=
  { d := p.d, log_w := p.log_w + c }

/-- Adding a constant `c` to every particle's `log_w`. -/
def shiftLW (c : ℚ) (e : Ensemble) : Ensemble :=
  e.map (shiftP c)

/-- The maximum `log_w` over the ensemble (`0` on an empty ensemble, where
it is never used). -/
def maxLogW : Ensemble → ℚ
  | [] => 0
  | [p] => p.log_w
  | p :: q :: rest => max p.log_w (maxLogW (q :: rest))

/-- Modelled from the spec: the bodies of `getMean` and
`getCovarianceAndMean` are not part of the given sources (only their
declarations are). Per the spec, weights are normalized by subtracting
the maximum log-weight before exponentiating and dividing by the sum:
this is the unnormalized weight `exp(log_w - max_log_w)`. -/
noncomputable def unW (e : Ensemble) (p : Particle) : ℝ :=
  Real.exp ((p.log_w - maxLogW e : ℚ) : ℝ)

/-- The sum of the unnormalized weights over the ensemble. -/
noncomputable def sumW (e : Ensemble) : ℝ :=
  (e.map (unW e)).sum

/-- The normalized weight of one particle of the ensemble. -/
noncomputable def normW (e : Ensemble) (p : Particle) : ℝ :=
  unW e p / sumW e

/-- Weighted sum of a per-particle quantity under the normalized
weights. -/
noncomputable def wsum (e : Ensemble) (f : Particle → ℝ) : ℝ :=
  (e.map (fun p => normW e p * f p)).sum

/-- The real-valued coordinates of a particle, by axis index. -/
def coordR : Fin 3 → Particle → ℝ
  | 0, p => (p.d.x : ℝ)
  | 1, p => (p.d.y : ℝ)
  | 2, p => (p.d.z : ℝ)

/-- Modelled from the spec: `getMean` is the weight-normalized arithmetic
mean of the particle points, `Σ w_i p_i` with normalized weights `w_i`. -/
noncomputable def getMean (e : Ensemble) : ℝ × ℝ × ℝ :=
  (wsum e (coordR 0), wsum e (coordR 1), wsum e (coordR 2))

/-- Modelled from the spec: `getCovarianceAndMean` returns the weighted
sample covariance `Σ w_i (p_i - mean)(p_i - mean)ᵗ` (a 3×3 matrix, given
entrywise) together with the mean, both under the same normalized
weights. -/
noncomputable def getCovarianceAndMean (e : Ensemble) :
    (Fin 3 → Fin 3 → ℝ) × (ℝ × ℝ × ℝ) :=
  (fun i j =>
      wsum e (fun p => (coordR i p - wsum e (coordR i)) * (coordR j p - wsum e (coordR j))),
    getMean e)

/-! ### Helper lemmas -/

lemma setSize_eq_replicate (n : Nat) (v : TPoint3Df) :
    setSize n v = List.replicate n { d := v, log_w := 0 } := by
  induction n with
  | zero => rfl
  | succ m ih => simp [setSize, List.replicate, ih]

lemma length_setSize (n : Nat) (v : TPoint3Df) : (setSize n v).length = n := by
  rw [setSize_eq_replicate]; exact List.length_replicate ..

lemma writeParticles_lt (e : Ensemble) (k : Int) (acc : Int → PFields)
    (j : Int) (h : j < k) : writeParticles e k acc j = acc j := by
  induction e generalizing k acc with
  | nil => rfl
  | cons p rest ih =>
      rw [writeParticles, ih _ _ (by omega)]
      simp only [if_neg (by omega : ¬ j = k)]

lemma writeParticles_get (e : Ensemble) (k : Int) (acc : Int → PFields)
    (i : Nat) (h : i < e.length) :
    writeParticles e k acc (k + i) = pfOfParticle (e.get ⟨i, h⟩) := by
  induction e generalizing k acc i with
  | nil => exact absurd h (Nat.not_lt_zero i)
  | cons p rest ih =>
      cases i with
      | zero =>
          rw [writeParticles, writeParticles_lt _ _ _ _ (by omega)]
          simp
      | succ m =>
          have hm : m < rest.length := Nat.lt_of_succ_lt_succ h
          have harith : k + ((m : Int) + 1) = (k + 1) + (m : Int) := by ring
          rw [writeParticles]
          push_cast
          rw [harith, ih (k + 1) _ m hm]
          rfl

lemma length_readParticles (f : Int → PFields) (e : Ensemble) (k : Int) :
    (readParticles f e k).length = e.length := by
  induction e generalizing k with
  | nil => rfl
  | cons p rest ih => simp [readParticles, ih]

lemma readParticles_of_pointwise (f : Int → PFields) :
    ∀ (src tgt : Ensemble) (k : Int), tgt.length = src.length →
      (∀ (i : Nat) (h : i < src.length), f (k + i) = pfOfParticle (src.get ⟨i, h⟩)) →
      readParticles f tgt k = src := by
  intro src tgt
  induction tgt generalizing src with
  | nil =>
      intro k hlen _
      exact (List.eq_nil_of_length_eq_zero hlen.symm).symm
  | cons p rest ih =>
      intro k hlen hf
      cases src with
      | nil => simp at hlen
      | cons s srest =>
          have h0 : f (k + (0 : Nat)) = pfOfParticle s := hf 0 (Nat.succ_pos _)
          have hk : f k = pfOfParticle s := by simpa using h0
          rw [readParticles, hk]
          have htail : readParticles f rest (k + 1) = srest := by
            apply ih srest (k + 1) (by simpa using hlen)
            intro i hi
            have := hf (i + 1) (Nat.succ_lt_succ hi)
            have harith : k + ((i : Int) + 1) = (k + 1) + (i : Int) := by ring
            rw [show ((i + 1 : Nat) : Int) = (i : Int) + 1 by push_cast; ring, harith] at this
            exact this
          rw [htail]
          rfl

lemma serializeToLoop_fst (e : Ensemble) (k : Int) (acc : Int → PFields) :
    (serializeToLoop e k acc).1 = e := by
  induction e generalizing k acc with
  | nil => rfl
  | cons p rest ih => simp [serializeToLoop, ih]

lemma serializeToLoop_snd (e : Ensemble) (k : Int) (acc : Int → PFields) :
    (serializeToLoop e k acc).2 = writeParticles e k acc := by
  induction e generalizing k acc with
  | nil => rfl
  | cons p rest ih => simp [serializeToLoop, writeParticles, ih]

lemma serializeToSt_schema (e : Ensemble) : (serializeToSt e).1 = serializeTo e := by
  simp [serializeToSt, serializeTo, serializeToLoop_snd]

/-- With the decode counter starting at `0` (the evident intent: the
matching encode loop is initialized `int k = 0`), decoding the encoded
schema reproduces the ensemble exactly, for any ensemble small enough
that the `uint32_t` count does not wrap. -/
lemma roundtrip_exact_when_counter_starts_at_zero (e tgt : Ensemble)
    (hsz : size e < 2 ^ 32) :
    (serializeFrom tgt (serializeTo e) 0).1 = e := by
  have h1 : size e % 2 ^ 32 = size e := Nat.mod_eq_of_lt hsz
  have hN : (((serializeTo e).N) % (2 ^ 32)).toNat = size e := by
    show ((Int.ofNat (size e % 2 ^ 32)) % (2 ^ 32)).toNat = size e
    have ha : (0 : Int) ≤ Int.ofNat (size e) := Int.ofNat_nonneg _
    have hb : Int.ofNat (size e) < 2 ^ 32 := by
      simp only [Int.ofNat_eq_coe]
      exact_mod_cast hsz
    rw [h1, Int.emod_eq_of_lt ha hb]
    rfl
  have hsf : serializeFrom tgt (serializeTo e) 0 =
      (readParticles (serializeTo e).particles
        (setSize ((((serializeTo e).N) % (2 ^ 32)).toNat) { x := 0, y := 0, z := 0 }) 0,
       none) := rfl
  rw [hsf, hN]
  apply readParticles_of_pointwise
  · rw [length_setSize]; rfl
  · intro i hi
    simpa using writeParticles_get e 0 (fun _ => pf0) i hi

lemma maxLogW_shift (c : ℚ) : ∀ (e : Ensemble), e ≠ [] →
    maxLogW (shiftLW c e) = maxLogW e + c := by
  intro e
  induction e with
  | nil => intro h; exact absurd rfl h
  | cons p rest ih =>
      intro _
      cases rest with
      | nil => rfl
      | cons q t =>
          have hr : maxLogW (shiftLW c (q :: t)) = maxLogW (q :: t) + c :=
            ih (List.cons_ne_nil q t)
          show max (p.log_w + c) (maxLogW (shiftLW c (q :: t))) =
            max p.log_w (maxLogW (q :: t)) + c
          rw [hr, max_add_add_right]

lemma unW_shift (c : ℚ) (e : Ensemble) (he : e ≠ []) (p : Particle) :
    unW (shiftLW c e) (shiftP c p) = unW e p := by
  unfold unW
  congr 1
  rw [show (shiftP c p).log_w = p.log_w + c from rfl, maxLogW_shift c e he]
  push_cast
  ring

lemma sumW_shift (c : ℚ) (e : Ensemble) (he : e ≠ []) :
    sumW (shiftLW c e) = sumW e := by
  unfold sumW
  show ((e.map (shiftP c)).map (unW (shiftLW c e))).sum = (e.map (unW e)).sum
  rw [List.map_map]
  have hfun : (unW (shiftLW c e) ∘ shiftP c) = unW e :=
    funext (unW_shift c e he)
  rw [hfun]

lemma normW_shift (c : ℚ) (e : Ensemble) (he : e ≠ []) (p : Particle) :
    normW (shiftLW c e) (shiftP c p) = normW e p := by
  unfold normW
  rw [unW_shift c e he, sumW_shift c e he]

lemma wsum_shift (c : ℚ) (e : Ensemble) (f : Particle → ℝ)
    (hf : ∀ p, f (shiftP c p) = f p) :
    wsum (shiftLW c e) f = wsum e f := by
  cases e with
  | nil => rfl
  | cons q t =>
      unfold wsum
      show (((q :: t).map (shiftP c)).map (fun p => normW (shiftLW c (q :: t)) p * f p)).sum =
        ((q :: t).map (fun p => normW (q :: t) p * f p)).sum
      rw [List.map_map]
      have hfun : ((fun p => normW (shiftLW c (q :: t)) p * f p) ∘ shiftP c) =
          fun p => normW (q :: t) p * f p := by
        funext p
        show normW (shiftLW c (q :: t)) (shiftP c p) * f (shiftP c p) =
          normW (q :: t) p * f p
        rw [normW_shift c (q :: t) (List.cons_ne_nil q t), hf]
      rw [hfun]

lemma coordR_shift (i : Fin 3) (c : ℚ) (p : Particle) :
    coordR i (shiftP c p) = coordR i p := by
  fin_cases i <;> rfl

/-! ### Claim theorems -/

/-- Claim C1. The claim states that encoding with `serializeTo` and
decoding with `serializeFrom` into a fresh same-size instance reproduces
identical `(x, y, z, log_w)` values per particle. The code violates this:
the decode loop counter is declared `int k;` without an initializer
(the encode loop uses `int k = 0;`), so decoding reads
`in["particles"][k]` from an indeterminate start index. This theorem
evaluates the code at a concrete failing input: a two-particle ensemble
with the indeterminate counter starting at `1`, where the round trip
yields `[(4,5,6,20), (0,0,0,0)]` instead of `[(1,2,3,10), (4,5,6,20)]`. -/
theorem roundtrip_fails_with_uninitialized_counter :
    (serializeFrom
        (setSize
          (size [(⟨⟨1, 2, 3⟩, 10⟩ : Particle), ⟨⟨4, 5, 6⟩, 20⟩])
          ⟨0, 0, 0⟩)
        (serializeTo [(⟨⟨1, 2, 3⟩, 10⟩ : Particle), ⟨⟨4, 5, 6⟩, 20⟩]) 1).1 ≠
      [(⟨⟨1, 2, 3⟩, 10⟩ : Particle), ⟨⟨4, 5, 6⟩, 20⟩] := by
  decide

/-- Claim C2, counterexample. The claim states that a matching `datatype`
with any version other than `1` is an unknown-version error that leaves
the ensemble unchanged. But the code reads the version into a `uint8_t`,
so version `257` truncates to `1` and decodes: at this concrete input the
call raises no error and replaces the one-particle ensemble by an empty
one. -/
theorem version_truncation_decodes_257 :
    (serializeFrom [(⟨⟨1, 2, 3⟩, 10⟩ : Particle)]
        { datatype := className, version := some 257, N := 0,
          particles := fun _ => pf0 } 0).2 = none ∧
    (serializeFrom [(⟨⟨1, 2, 3⟩, 10⟩ : Particle)]
        { datatype := className, version := some 257, N := 0,
          particles := fun _ => pf0 } 0).1 ≠
      [(⟨⟨1, 2, 3⟩, 10⟩ : Particle)] := by
  constructor
  · decide
  · decide

/-- Claim C2, amended: for every input schema whose datatype tag matches
the class name but whose version, truncated to an unsigned 8-bit value
(the code reads it into `uint8_t`), is not `1`, `serializeFrom` fails
with an unknown-version error carrying the truncated version and leaves
the target ensemble unchanged. -/
theorem serializeFrom_unknown_version_mod256_errors (e : Ensemble)
    (sch : Schema) (k0 : Int) (hdt : sch.datatype = className)
    (hv : (((sch.version.getD 0) % 256)).toNat ≠ 1) :
    serializeFrom e sch k0 =
      (e, some (SerError.unknownVersion (((sch.version.getD 0) % 256)).toNat)) := by
  simp only [serializeFrom]
  rw [if_pos hdt, if_neg hv]

/-- Claim C2, witness: concrete application with version `2`. -/
theorem serializeFrom_unknown_version_mod256_errors_witness :
    ({ datatype := className, version := some 2, N := 0,
       particles := fun _ => pf0 } : Schema).datatype = className ∧
    ((((some (2 : Int)).getD 0) % 256)).toNat ≠ 1 ∧
    serializeFrom [(⟨⟨7, 8, 9⟩, 1⟩ : Particle)]
        { datatype := className, version := some 2, N := 0,
          particles := fun _ => pf0 } 0 =
      ([(⟨⟨7, 8, 9⟩, 1⟩ : Particle)], some (SerError.unknownVersion 2)) :=
  ⟨rfl, by decide,
    serializeFrom_unknown_version_mod256_errors [(⟨⟨7, 8, 9⟩, 1⟩ : Particle)]
      _ 0 rfl (by decide)⟩

/-- Claim C3: on a schema whose `datatype` tag does not match the class
name, `serializeFrom` is a no-op: no error is raised and the ensemble is
returned entirely unchanged, regardless of the schema's version, count or
particle contents and of the indeterminate counter. -/
theorem serializeFrom_datatype_mismatch_noop (e : Ensemble) (sch : Schema)
    (k0 : Int) (h : sch.datatype ≠ className) :
    serializeFrom e sch k0 = (e, none) := by
  simp only [serializeFrom]
  rw [if_neg h]

/-- Claim C3, witness: concrete application with a foreign datatype tag. -/
theorem serializeFrom_datatype_mismatch_noop_witness :
    ({ datatype := "CPosePDFGaussian", version := some 99, N := 7,
       particles := fun _ => pf0 } : Schema).datatype ≠ className ∧
    serializeFrom [(⟨⟨1, 1, 1⟩, 0⟩ : Particle)]
        { datatype := "CPosePDFGaussian", version := some 99, N := 7,
          particles := fun _ => pf0 } 5 =
      ([(⟨⟨1, 1, 1⟩, 0⟩ : Particle)], none) :=
  ⟨by decide,
    serializeFrom_datatype_mismatch_noop [(⟨⟨1, 1, 1⟩, 0⟩ : Particle)]
      _ 5 (by decide)⟩

/-- Claim C4, counterexample. The claim states `serializeTo` writes `N`
equal to the particle count, for every ensemble. But the code writes
`(uint32_t)size()`, so at an ensemble of `2^32` particles the written `N`
is `0`, not the particle count. -/
theorem serializeTo_N_truncated_at_2pow32 :
    (serializeTo (List.replicate (2 ^ 32) (⟨⟨0, 0, 0⟩, 0⟩ : Particle))).N ≠
      Int.ofNat (size (List.replicate (2 ^ 32) (⟨⟨0, 0, 0⟩, 0⟩ : Particle))) := by
  simp only [serializeTo, size, List.length_replicate]
  decide

/-- Claim C4, amended: `serializeTo` unconditionally writes `datatype`
(the class type tag), `version = 1`, `N` equal to the particle count
reduced modulo `2^32` (the count is cast to `uint32_t`), and for every
`i` below the particle count, `particles[i]` holds the `log_w, x, y, z`
of the `i`-th particle in ensemble order. -/
theorem serializeTo_fields (e : Ensemble) :
    (serializeTo e).datatype = className ∧
    (serializeTo e).version = some 1 ∧
    (serializeTo e).N = Int.ofNat (size e % 2 ^ 32) ∧
    ∀ (i : Nat) (h : i < size e),
      (serializeTo e).particles (Int.ofNat i) = pfOfParticle (e.get ⟨i, h⟩) := by
  refine ⟨rfl, rfl, rfl, ?_⟩
  intro i h
  show writeParticles e 0 (fun _ => pf0) (Int.ofNat i) = pfOfParticle (e.get ⟨i, h⟩)
  simpa using writeParticles_get e 0 (fun _ => pf0) i h

/-- Claim C4, witness: concrete application reading back particle `1` of a
two-particle ensemble. -/
theorem serializeTo_fields_witness :
    1 < size [(⟨⟨1, 2, 3⟩, 10⟩ : Particle), ⟨⟨4, 5, 6⟩, 20⟩] ∧
    (serializeTo [(⟨⟨1, 2, 3⟩, 10⟩ : Particle), ⟨⟨4, 5, 6⟩, 20⟩]).particles
        (Int.ofNat 1) =
      pfOfParticle
        ([(⟨⟨1, 2, 3⟩, 10⟩ : Particle), ⟨⟨4, 5, 6⟩, 20⟩].get ⟨1, by decide⟩) :=
  ⟨by decide,
    (serializeTo_fields [(⟨⟨1, 2, 3⟩, 10⟩ : Particle), ⟨⟨4, 5, 6⟩, 20⟩]).2.2.2
      1 (by decide)⟩

/-- Claim C5: for all `n ≥ 0`, `setSize(n, v)` yields exactly `n`
particles, each equal to `v` with uniform weight `log_w = 0` (the result
is the `n`-fold replicate, so all previous content is discarded), and
`n = 0` yields the empty ensemble. -/
theorem setSize_uniform_reset (n : Nat) (v : TPoint3Df) :
    size (setSize n v) = n ∧
    setSize n v = List.replicate n { d := v, log_w := 0 } ∧
    setSize 0 v = [] :=
  ⟨length_setSize n v, setSize_eq_replicate n v, rfl⟩

/-- Claim C6: for every ensemble and every constant `c`, adding `c` to
every particle's `log_w` leaves `getMean` and `getCovarianceAndMean`
unchanged — the mandated normalization (subtract the maximum log-weight
before exponentiating, then divide by the sum) makes the statistics
invariant under a common log-weight shift. -/
theorem mean_cov_invariant_under_logweight_shift (e : Ensemble) (c : ℚ) :
    getMean (shiftLW c e) = getMean e ∧
    getCovarianceAndMean (shiftLW c e) = getCovarianceAndMean e := by
  have hmean : getMean (shiftLW c e) = getMean e := by
    unfold getMean
    rw [wsum_shift c e (coordR 0) (coordR_shift 0 c),
        wsum_shift c e (coordR 1) (coordR_shift 1 c),
        wsum_shift c e (coordR 2) (coordR_shift 2 c)]
  refine ⟨hmean, ?_⟩
  unfold getCovarianceAndMean
  rw [hmean]
  have hcov : ∀ i j : Fin 3,
      wsum (shiftLW c e) (fun p =>
          (coordR i p - wsum (shiftLW c e) (coordR i)) *
          (coordR j p - wsum (shiftLW c e) (coordR j))) =
      wsum e (fun p =>
          (coordR i p - wsum e (coordR i)) *
          (coordR j p - wsum e (coordR j))) := by
    intro i j
    rw [wsum_shift c e (coordR i) (coordR_shift i c),
        wsum_shift c e (coordR j) (coordR_shift j c)]
    exact wsum_shift c e _ (fun p => by
      rw [coordR_shift i c p, coordR_shift j c p])
  exact congrArg (fun m => (m, getMean e)) (funext fun i => funext fun j => hcov i j)

/-- Claim C7 (spec-modelled: the body of `drawSingleSample` is not among
the given sources): drawing a single sample from an empty ensemble fails
immediately with an explicit precondition error — no garbage point is
produced — and the ensemble state after the call is still the empty
ensemble, unchanged, for every state of the external random source. -/
theorem drawSingleSample_empty_precondition_failure (r : Nat) :
    drawSingleSample [] r = (Except.error PreError.emptyEnsemble, []) := rfl

/-- Claim C8, counterexample. The claim states that after a successful
decode the particle count equals the schema's `N` field. But the code
reads `N` into a `uint32_t`, so a schema with `N = 2^32` decodes into an
ensemble of `0` particles, not `2^32`. -/
theorem serializeFrom_count_truncated_at_2pow32 :
    size (serializeFrom []
        { datatype := className, version := some 1, N := 2 ^ 32,
          particles := fun _ => pf0 } 0).1 ≠
      Int.toNat (2 ^ 32) := by
  decide

/-- Claim C8, amended: for every schema whose datatype matches and whose
version field is `1`, after `serializeFrom` the particle count equals the
schema's `N` field reduced modulo `2^32` (the code reads `N` as
`uint32_t`), regardless of the target's previous size and of the
indeterminate loop counter. -/
theorem serializeFrom_count_eq_N_mod_2pow32 (e : Ensemble) (sch : Schema)
    (k0 : Int) (hdt : sch.datatype = className)
    (hv : sch.version = some 1) :
    size (serializeFrom e sch k0).1 = (sch.N % (2 ^ 32)).toNat := by
  simp only [serializeFrom, hv]
  rw [if_pos hdt]
  rw [if_pos (show ((((some (1 : Int)).getD 0) % 256)).toNat = 1 from rfl)]
  show size (readParticles sch.particles
    (setSize ((sch.N % (2 ^ 32)).toNat) { x := 0, y := 0, z := 0 }) k0) = _
  unfold size
  rw [length_readParticles, length_setSize]

/-- Claim C8, witness: concrete application with `N = 3` on an initially
empty target. -/
theorem serializeFrom_count_eq_N_mod_2pow32_witness :
    ({ datatype := className, version := some 1, N := 3,
       particles := fun _ => pf0 } : Schema).datatype = className ∧
    ({ datatype := className, version := some 1, N := 3,
       particles := fun _ => pf0 } : Schema).version = some 1 ∧
    size (serializeFrom []
        { datatype := className, version := some 1, N := 3,
          particles := fun _ => pf0 } 0).1 = ((3 : Int) % (2 ^ 32)).toNat :=
  ⟨rfl, rfl, serializeFrom_count_eq_N_mod_2pow32 [] _ 0 rfl rfl⟩

/-- Claim C9: `serializeTo` is read-only — threading the ensemble state
through the encoding loop, the state after the call is identical to the
state before: same particle count and same point coordinates and
log-weight for every particle. -/
theorem serializeTo_readonly (e : Ensemble) : (serializeToSt e).2 = e :=
  serializeToLoop_fst e 0 (fun _ => pf0)

/-- Claim C10: on a schema whose datatype matches but which has no
`version` field, the code's `in.get("version",0)` yields the default `0`,
which is not a recognized version, so `serializeFrom` raises the
unknown-version error (carrying version `0`) and leaves the ensemble
unchanged. -/
theorem serializeFrom_missing_version_defaults_zero_errors (e : Ensemble)
    (sch : Schema) (k0 : Int) (hdt : sch.datatype = className)
    (hv : sch.version = none) :
    serializeFrom e sch k0 = (e, some (SerError.unknownVersion 0)) := by
  simp only [serializeFrom, hv]
  rw [if_pos hdt]
  rw [if_neg (show ¬ ((((none : Option Int).getD 0) % 256)).toNat = 1 by decide)]
  rfl

/-- Claim C10, witness: concrete application with an absent version
field. -/
theorem serializeFrom_missing_version_defaults_zero_errors_witness :
    ({ datatype := className, version := none, N := 5,
       particles := fun _ => pf0 } : Schema).datatype = className ∧
    ({ datatype := className, version := none, N := 5,
       particles := fun _ => pf0 } : Schema).version = none ∧
    serializeFrom [(⟨⟨1, 2, 3⟩, 4⟩ : Particle)]
        { datatype := className, version := none, N := 5,
          particles := fun _ => pf0 } 2 =
      ([(⟨⟨1, 2, 3⟩, 4⟩ : Particle)], some (SerError.unknownVersion 0)) :=
  ⟨rfl, rfl,
    serializeFrom_missing_version_defaults_zero_errors
      [(⟨⟨1, 2, 3⟩, 4⟩ : Particle)] _ 2 rfl rfl⟩

end CPointPDFParticles
